import Mathlib

/-!
Shallow embedding of the decision-and-execution core of the
`kalshi_quant_bot` repository (files `src/kalshi_bot/models.py`, `fees.py`,
`kalshi/api.py`, `strategy.py`, `risk.py`, `execution.py`, `fair_prob.py`).

Conventions of the embedding:
* Python `int` is `Int`; Python `float` is modelled as an exact rational `ℚ`
  (float literals such as `1e-12` become the corresponding rationals).
* Python `None` is `Option.none` or the dedicated `PyVal.vnone` constructor.
* Code that can raise is modelled in `Except String`; a caught exception is
  an `Except.error` value consumed by the caller.
* Network collaborators (the exchange client) are injected as function-valued
  records, mirroring the constructor injection in the source.
* The transcendental functions `math.exp` and `math.log` used by the live
  fair-probability provider are injected as parameters `mexp`, `mlog`.
-/

namespace KalshiBot

/-- OrderIntent record from `models.py`: the frozen dataclass has exactly the
fields `ticker, side, action, count, price_cents, reason, client_order_id`.
Note that it has no `post_only` and no `reduce_only` field. -/
structure OrderIntent where
  ticker : String
  side : String
  action : String
  count : Int
  price_cents : Int
  reason : String := ""
  client_order_id : Option String := none
  deriving DecidableEq, Repr

/-- Field names of the `OrderIntent` dataclass in `models.py`, in declaration
order.  A Python dataclass constructor accepts exactly these keywords. -/
def orderIntentFieldNames : List String :=
  ["ticker", "side", "action", "count", "price_cents", "reason", "client_order_id"]

/-- Keyword-argument names passed to `OrderIntent(...)` at the construction
sites inside `FeeAwareFairValueStrategy.generate` (strategy.py lines 127-135
and 153-161; both the YES and the NO candidate pass the same keyword names). -/
def feeAwareIntentKwargNames : List String :=
  ["ticker", "side", "action", "count", "price_cents", "post_only", "reason"]

/-- Python dataclass keyword-argument rule: `Cls(**kwargs)` raises `TypeError`
unless every keyword names a declared field. -/
def dataclassAcceptsKwargs (fields kwargs : List String) : Bool :=
  kwargs.all fun k => fields.contains k

/-- Message for the Python `TypeError` raised when `OrderIntent` is
constructed with the unknown keyword `post_only`. -/
def unexpectedKwargMsg : String :=
  "TypeError: unexpected keyword argument post_only"

/-- Python dataclass construction with keyword arguments: yields the record
when every keyword names a declared field of `OrderIntent`, and raises
`TypeError` otherwise. -/
def mkOrderIntentKw (kwargNames : List String) (v : OrderIntent) :
    Except String OrderIntent :=
  if dataclassAcceptsKwargs orderIntentFieldNames kwargNames then Except.ok v
  else Except.error unexpectedKwargMsg

/-! ## Fee model (`fees.py`) -/

/-- Rational value of the float literal `1e-12` in `_round_up_to_cent`. -/
def epsTwelve : ℚ := 1 / 1000000000000

/-- Translation of `_round_up_to_cent` (fees.py): round up to the next $0.01,
subtracting `1e-12` first to avoid floating-point overshoot. -/
def round_up_to_cent (dollars : ℚ) : ℚ :=
  (Int.ceil ((dollars - epsTwelve) * 100) : ℚ) / 100

/-- Translation of `kalshi_fee_dollars` (fees.py). -/
def kalshi_fee_dollars (price_cents count : Int) (kind : String)
    (taker_rate maker_rate : ℚ) : ℚ :=
  if count ≤ 0 then 0
  else
    let P : ℚ := max 0 (min (99 / 100) ((price_cents : ℚ) / 100))
    let rate : ℚ :=
      if kind = "taker" then taker_rate
      else if kind = "maker" then maker_rate
      else 0
    round_up_to_cent (rate * (count : ℚ) * P * (1 - P))

/-- Unrounded raw fee value `rate * count * P * (1 - P)` appearing inside
`kalshi_fee_dollars` before `_round_up_to_cent` is applied. -/
def rawFee (price_cents count : Int) (kind : String)
    (taker_rate maker_rate : ℚ) : ℚ :=
  let P : ℚ := max 0 (min (99 / 100) ((price_cents : ℚ) / 100))
  let rate : ℚ :=
    if kind = "taker" then taker_rate
    else if kind = "maker" then maker_rate
    else 0
  rate * (count : ℚ) * P * (1 - P)

/-- Translation of `net_ev_per_contract` (fees.py): expected value per
contract when buying YES at `price_cents` and holding to settlement. -/
def net_ev_per_contract (fair_prob_yes : ℚ) (price_cents : Int)
    (fee_kind : String) (taker_rate maker_rate : ℚ) : ℚ :=
  let Pm : ℚ := (price_cents : ℚ) / 100
  let gross := fair_prob_yes - Pm
  gross - kalshi_fee_dollars price_cents 1 fee_kind taker_rate maker_rate

/-! ## Market-data adapter (`kalshi/api.py`) -/

/-- Best bid/ask record from `kalshi/api.py` (`BestPrices`). -/
structure BestPrices where
  yes_bid : Option Int
  yes_ask : Option Int
  no_bid : Option Int
  no_ask : Option Int
  deriving DecidableEq, Repr

/-- Translation of `_best_bid` (kalshi/api.py): levels are `[price, size]`
pairs sorted ascending by price; the best bid is the price entry of the last
element, absent when the side is empty. -/
def best_bid (bids : List (Int × Int)) : Option Int :=
  bids.getLast?.map Prod.fst

/-- Raw order book: the ascending price levels for the yes and no sides, as
decoded from `orderbook_json["orderbook"]`. -/
structure Orderbook where
  yes : List (Int × Int)
  no : List (Int × Int)

/-- Translation of `KalshiAPI.best_prices_from_orderbook` (kalshi/api.py):
best bids are observed, the two asks are derived by the reciprocal rule. -/
def best_prices_from_orderbook (ob : Orderbook) : BestPrices :=
  let yes_bid := best_bid ob.yes
  let no_bid := best_bid ob.no
  let yes_ask := no_bid.map (fun b => 100 - b)
  let no_ask := yes_bid.map (fun b => 100 - b)
  { yes_bid := yes_bid, yes_ask := yes_ask, no_bid := no_bid, no_ask := no_ask }

/-! ## Risk gate (`risk.py`) -/

/-- Risk limits record from `risk.py` (`RiskLimits`). -/
structure RiskLimits where
  max_order_count : Int
  max_position_per_ticker : Int

/-- One decoded entry of the positions response.  `current_position` uses
`p.get("position", 0)` when the key `"position"` is present and
`p.get("count", 0)` otherwise. -/
structure PositionEntry where
  position : Option Int
  count : Option Int

/-- Contribution of one position entry to the summed position (risk.py,
`RiskManager.current_position` loop body). -/
def positionContribution (p : PositionEntry) : Int :=
  match p.position with
  | some v => v
  | none => p.count.getD 0

/-- Translation of `RiskManager.current_position` (risk.py) with the decoded
position entries for the ticker supplied by the caller (the HTTP fetch and
its auth-failure fallback are the injected collaborator). -/
def current_position (positions : List PositionEntry) : Int :=
  positions.foldl (fun total p => total + positionContribution p) 0

/-- Translation of `RiskManager.approve` (risk.py).  The two source locals
`pos = self.current_position(...)` and `projected = abs(pos) + intent.count`
are inlined. -/
def riskApprove (limits : RiskLimits) (positions : List PositionEntry)
    (it : OrderIntent) : Option String :=
  if it.count ≤ 0 then some "count<=0"
  else if it.count > limits.max_order_count then
    some ("count>" ++ toString limits.max_order_count)
  else if |current_position positions| + it.count >
      limits.max_position_per_ticker then
    some ("projected_position(" ++
      toString (|current_position positions| + it.count) ++ ")>" ++
      toString limits.max_position_per_ticker)
  else if ¬ (1 ≤ it.price_cents ∧ it.price_cents ≤ 99) then
    some "price must be 1..99 cents"
  else if ¬ ((it.side = "yes" ∨ it.side = "no") ∧
      (it.action = "buy" ∨ it.action = "sell")) then
    some "invalid side/action"
  else none

/-! ## Decision engine (`strategy.py`) -/

/-- Market snapshot from `strategy.py` (`MarketSnapshot`). -/
structure MarketSnapshot where
  ticker : String
  best : BestPrices

/-- Configuration of `SimpleFairValueStrategy` (strategy.py,
`FairValueConfig`); the fair-probability table is the dict lookup. -/
structure FairValueConfig where
  fair_probs : String → Option ℚ
  edge_threshold : ℚ

/-- Configuration of `FeeAwareFairValueStrategy` (strategy.py,
`FeeAwareConfig`). -/
structure FeeAwareConfig where
  edge_threshold : ℚ
  fee_kind : String
  taker_fee_rate : ℚ
  maker_fee_rate : ℚ
  min_net_ev_per_contract : ℚ
  post_only : Bool

/-- One snapshot iteration of `SimpleFairValueStrategy.generate`
(strategy.py lines 42-72).  The interpolated reason strings of the source are
abbreviated to constant skeletons; no other part of the intent depends on
them.  `SimpleFairValueStrategy` passes only declared dataclass fields, so
its constructions succeed. -/
def simpleStep (cfg : FairValueConfig) (order_count : Int)
    (intents : List OrderIntent) (s : MarketSnapshot) : List OrderIntent :=
  match cfg.fair_probs s.ticker with
  | none => intents
  | some p_fair =>
    let best := s.best
    let intents1 :=
      match best.yes_ask with
      | some ask =>
        if p_fair - (ask : ℚ) / 100 ≥ cfg.edge_threshold then
          intents ++
            [{ ticker := s.ticker, side := "yes", action := "buy",
               count := order_count, price_cents := max 1 (ask - 1),
               reason := "fair > ask + thr" }]
        else intents
      | none => intents
    match best.yes_bid with
    | some bid =>
      if (bid : ℚ) / 100 - p_fair ≥ cfg.edge_threshold then
        match best.no_ask with
        | some no_ask =>
          intents1 ++
            [{ ticker := s.ticker, side := "no", action := "buy",
               count := order_count, price_cents := max 1 (no_ask - 1),
               reason := "bid_yes > fair + thr" }]
        | none => intents1
      else intents1
    | none => intents1

/-- Translation of `SimpleFairValueStrategy.generate` (strategy.py);
`order_count` is the strategy constructor argument. -/
def simpleGenerate (cfg : FairValueConfig) (order_count : Int)
    (snaps : List MarketSnapshot) : List OrderIntent :=
  snaps.foldl (simpleStep cfg order_count) []

/-- Translation of `FeeAwareFairValueStrategy._target_px` (strategy.py):
improve the ask by one cent (clamped at 1) when maker-only is enabled,
otherwise propose the raw ask. -/
def target_px (cfg : FeeAwareConfig) (ask_cents : Int) : Int :=
  if cfg.post_only then max 1 (ask_cents - 1) else ask_cents

/-- The BUY-NO candidate evaluation of `FeeAwareFairValueStrategy.generate`
(strategy.py lines 139-162), reached only when the BUY-YES candidate did not
qualify (or had no ask).  The `OrderIntent` construction passes the keyword
`post_only`, which is not a dataclass field, so a qualifying candidate raises
`TypeError` (see `mkOrderIntentKw`). -/
def feeAwareNoCand (cfg : FeeAwareConfig) (p_fair : ℚ) (order_count : Int)
    (intents : List OrderIntent) (s : MarketSnapshot) :
    Except String (List OrderIntent) :=
  match s.best.no_ask with
  | some ask =>
    let px := target_px cfg ask
    let p_no := 1 - p_fair
    let edge := p_no - (px : ℚ) / 100
    let net := net_ev_per_contract p_no px cfg.fee_kind
      cfg.taker_fee_rate cfg.maker_fee_rate
    if edge ≥ cfg.edge_threshold ∧ net ≥ cfg.min_net_ev_per_contract then
      match mkOrderIntentKw feeAwareIntentKwargNames
          { ticker := s.ticker, side := "no", action := "buy",
            count := order_count, price_cents := px,
            reason := "NO netEV edge fairNO" } with
      | Except.error e => Except.error e
      | Except.ok it => Except.ok (intents ++ [it])
    else Except.ok intents
  | none => Except.ok intents

/-- One snapshot iteration of `FeeAwareFairValueStrategy.generate`
(strategy.py lines 107-162): evaluate the BUY-YES candidate; on a qualifying
YES candidate append it and `continue` without evaluating BUY-NO; otherwise
fall through to the BUY-NO candidate. -/
def feeAwareStep (cfg : FeeAwareConfig) (provider : String → Option ℚ)
    (order_count : Int) (intents : List OrderIntent) (s : MarketSnapshot) :
    Except String (List OrderIntent) :=
  match provider s.ticker with
  | none => Except.ok intents
  | some p_fair =>
    match s.best.yes_ask with
    | some ask =>
      let px := target_px cfg ask
      let edge := p_fair - (px : ℚ) / 100
      let net := net_ev_per_contract p_fair px cfg.fee_kind
        cfg.taker_fee_rate cfg.maker_fee_rate
      if edge ≥ cfg.edge_threshold ∧ net ≥ cfg.min_net_ev_per_contract then
        match mkOrderIntentKw feeAwareIntentKwargNames
            { ticker := s.ticker, side := "yes", action := "buy",
              count := order_count, price_cents := px,
              reason := "YES netEV edge fair" : OrderIntent } with
        | Except.error e => Except.error e
        | Except.ok it => Except.ok (intents ++ [it])
      else feeAwareNoCand cfg p_fair order_count intents s
    | none => feeAwareNoCand cfg p_fair order_count intents s

/-- Translation of `FeeAwareFairValueStrategy.generate` (strategy.py):
left-to-right over the snapshots, accumulating intents; an exception raised
inside the loop propagates out of `generate`. -/
def feeAwareGenerate (cfg : FeeAwareConfig) (provider : String → Option ℚ)
    (order_count : Int) (snaps : List MarketSnapshot) :
    Except String (List OrderIntent) :=
  snaps.foldlM (fun intents s => feeAwareStep cfg provider order_count intents s) []

/-! ## Executor (`execution.py`) -/

/-- Execution result record from `execution.py` (`ExecutionResult`). -/
structure ExecutionResult where
  intent : OrderIntent
  ok : Bool
  detail : String
  deriving DecidableEq, Repr

/-- Message for the Python `AttributeError` raised by the attribute access
`it.post_only` in `Executor.execute` (execution.py line 77): the models.py
dataclass defines no such field.  The access happens inside the `try` block,
so the executor catches it and reports an `EXEC_ERROR`. -/
def postOnlyAttrErrMsg : String :=
  "AttributeError: OrderIntent object has no attribute post_only"

/-- Attribute access `it.post_only` on an `OrderIntent` value: always raises,
because `OrderIntent` declares no `post_only` field. -/
def orderIntentGetPostOnly (_it : OrderIntent) : Except String Bool :=
  Except.error postOnlyAttrErrMsg

/-- Python `a or b` on an optional string where the empty string is falsy. -/
def pyOrStr (a : Option String) (b : String) : String :=
  match a with
  | some s => if s = "" then b else s
  | none => b

/-- Translation of execution.py line 68:
`client_id = it.client_order_id or "bot-" + uuid4().hex[:16]`, with the
freshly drawn random hex passed in explicitly. -/
def executorClientId (it : OrderIntent) (freshHex : String) : String :=
  pyOrStr it.client_order_id ("bot-" ++ freshHex)

/-- Whether execution.py line 68 draws fresh randomness for an intent:
exactly when `it.client_order_id` is falsy. -/
def needsFreshId (it : OrderIntent) : Bool :=
  match it.client_order_id with
  | some s => s == ""
  | none => true

/-- Injected collaborators of `Executor` (constructor arguments in
execution.py): the risk-gate verdict, the paper flag, and the live
order-creation transport.  `create_limit_order` receives the intent and the
client order id and returns the optional exchange order id
(`resp.get("order").get("order_id")`), or the raised failure detail. -/
structure ExecEnv where
  approve : OrderIntent → Option String
  paper : Bool
  create_limit_order : OrderIntent → String → Except String (Option String)

/-- Loop body of `Executor.execute` (execution.py lines 42-111), threading the
index into the fresh-randomness stream `uuids` (one draw per intent whose
`client_order_id` is falsy and which reaches the live branch). -/
def executeGo (env : ExecEnv) (uuids : Nat → String) :
    List OrderIntent → Nat → List ExecutionResult
  | [], _ => []
  | it :: rest, n =>
    match env.approve it with
    | some reject =>
      { intent := it, ok := false, detail := "RISK_REJECT: " ++ reject } ::
        executeGo env uuids rest n
    | none =>
      if env.paper then
        { intent := it, ok := true, detail := "PAPER_OK (no order sent)" } ::
          executeGo env uuids rest n
      else
        let client_id := executorClientId it (uuids n)
        let nNext := if needsFreshId it then n + 1 else n
        let attempt : Except String (Option String) :=
          match orderIntentGetPostOnly it with
          | Except.error e => Except.error e
          | Except.ok _post => env.create_limit_order it client_id
        match attempt with
        | Except.ok resp =>
          { intent := it, ok := true,
            detail := "ORDER_SENT order_id=" ++ resp.getD "unknown" } ::
            executeGo env uuids rest nNext
        | Except.error e =>
          { intent := it, ok := false, detail := "EXEC_ERROR: " ++ e } ::
            executeGo env uuids rest nNext

/-- Translation of `Executor.execute` (execution.py). -/
def executorExecute (env : ExecEnv) (uuids : Nat → String)
    (intents : List OrderIntent) : List ExecutionResult :=
  executeGo env uuids intents 0

/-! ## Fair-probability providers (`fair_prob.py`)

The live-data payloads are loosely structured JSON; they are modelled by the
`PyVal` type below.  Market and milestone metadata are modelled as typed
records holding exactly the fields the source reads. -/

/-- Python value for loosely structured payloads: `None`, int, str, dict. -/
inductive PyVal where
  | vnone : PyVal
  | vint : Int → PyVal
  | vstr : String → PyVal
  | vdict : List (String × PyVal) → PyVal

/-- Python truthiness of a `PyVal`. -/
def pyTruthy : PyVal → Bool
  | PyVal.vnone => false
  | PyVal.vint n => n != 0
  | PyVal.vstr s => !s.isEmpty
  | PyVal.vdict fs => !fs.isEmpty

/-- Python `d.get(k)` on a known dict (missing key gives `None`). -/
def dlookup (fs : List (String × PyVal)) (k : String) : PyVal :=
  (fs.lookup k).getD PyVal.vnone

/-- Python `k in d` on a known dict. -/
def dhas (fs : List (String × PyVal)) (k : String) : Bool :=
  (fs.lookup k).isSome

/-- Python `v.get(k, dflt)` where `v` may not be a dict; a non-dict value
raises `AttributeError`. -/
def pyGetD (v : PyVal) (k : String) (dflt : PyVal) : Except String PyVal :=
  match v with
  | PyVal.vdict fs => Except.ok ((fs.lookup k).getD dflt)
  | _ => Except.error "AttributeError: get"

/-- Python `a or b` on arbitrary values. -/
def pyOrV (a b : PyVal) : PyVal :=
  if pyTruthy a then a else b

/-- Python `a or b` on optional strings where the empty string is falsy. -/
def pyOrS (a b : Option String) : Option String :=
  match a with
  | some s => if s = "" then b else some s
  | none => b

/-- Python `a or b` on optional ints where `0` is falsy (used by the clock
chain in `get_fair_prob_yes`). -/
def pyOrI (a b : Option Int) : Option Int :=
  match a with
  | some v => if v = 0 then b else some v
  | none => b

/-- Python `int(v)` coercion as applied to score and clock fields: ints pass
through, numeric strings parse; `none` models a raised exception. -/
def pyToInt (v : PyVal) : Option Int :=
  match v with
  | PyVal.vint n => some n
  | PyVal.vstr s => s.trim.toInt?
  | _ => none

/-- Translation of `_parse_clock_to_seconds` (fair_prob.py). -/
def parse_clock_to_seconds (clock : PyVal) : Option Int :=
  match clock with
  | PyVal.vnone => none
  | PyVal.vint n => some n
  | PyVal.vdict fs =>
    match fs.lookup "minutes", fs.lookup "seconds" with
    | some (PyVal.vint m), some (PyVal.vint s) => some (m * 60 + s)
    | _, _ => none
  | PyVal.vstr s =>
    let parts := s.trim.splitOn ":"
    if parts.length == 2 &&
        parts.all (fun p => !p.isEmpty && p.all Char.isDigit) then
      match parts with
      | [a, b] => some ((a.toNat?.getD 0 : Int) * 60 + (b.toNat?.getD 0 : Int))
      | _ => none
    else none

/-- Python `needle in hay` on strings. -/
def isSubstring (needle hay : String) : Bool :=
  needle.isEmpty || (hay.splitOn needle).length != 1

/-- Translation of the inner `_match` helper of `_extract_team_scores`
(fair_prob.py): a falsy hint or name gives `False`; otherwise lowercase
containment in either direction; a truthy non-string name raises
`AttributeError` on `.lower()`. -/
def matchHint (hint : Option String) (name : PyVal) : Except String Bool :=
  match hint with
  | none => Except.ok false
  | some h =>
    if h = "" then Except.ok false
    else if pyTruthy name then
      match name with
      | PyVal.vstr s =>
        Except.ok (isSubstring h.toLower s.toLower ||
          isSubstring s.toLower h.toLower)
      | _ => Except.error "AttributeError: lower"
    else Except.ok false

/-- Score of one home/away entry in `_extract_team_scores`:
`int(x["score"])` when `x` is a dict containing `"score"`, else `int(x)`;
`none` models a raised exception (`int` of a dict always raises). -/
def scoreOf (v : PyVal) : Option Int :=
  match v with
  | PyVal.vdict fs =>
    if dhas fs "score" then pyToInt (dlookup fs "score") else none
  | _ => pyToInt v

/-- First phase of `_extract_team_scores`: direct key pairs in order; the
first pair with both keys present and both values int-coercible wins, and a
coercion failure falls through to the next pair. -/
def directScores (fs : List (String × PyVal)) :
    List (String × String) → Option (Int × Int)
  | [] => none
  | (ys, ns) :: rest =>
    if dhas fs ys && dhas fs ns then
      match pyToInt (dlookup fs ys), pyToInt (dlookup fs ns) with
      | some a, some b => some (a, b)
      | _, _ => directScores fs rest
    else directScores fs rest

/-- Second phase of `_extract_team_scores`: home/away key pairs in order,
breaking at the first pair whose two entries both yield a score. -/
def homeAwayScores (fs : List (String × PyVal)) :
    List (String × String) → Option (Int × Int)
  | [] => none
  | (hk, ak) :: rest =>
    if dhas fs hk && dhas fs ak then
      match scoreOf (dlookup fs hk), scoreOf (dlookup fs ak) with
      | some h, some a => some (h, a)
      | _, _ => homeAwayScores fs rest
    else homeAwayScores fs rest

/-- The `home_name` expression of `_extract_team_scores`.  Python
conditional-expression precedence makes the trailing
`if isinstance(details.get("home"), dict) else None` guard the whole `or`
chain, so the name is `None` whenever `"home"` is not mapped to a dict. -/
def homeNameOf (fs : List (String × PyVal)) : PyVal :=
  match dlookup fs "home" with
  | PyVal.vdict hfs =>
    pyOrV (pyOrV (dlookup fs "home_team") (dlookup fs "homeTeam"))
      (if pyTruthy (PyVal.vdict hfs) then dlookup hfs "name" else PyVal.vnone)
  | _ => PyVal.vnone

/-- The `away_name` expression of `_extract_team_scores`, symmetric to
`homeNameOf`. -/
def awayNameOf (fs : List (String × PyVal)) : PyVal :=
  match dlookup fs "away" with
  | PyVal.vdict afs =>
    pyOrV (pyOrV (dlookup fs "away_team") (dlookup fs "awayTeam"))
      (if pyTruthy (PyVal.vdict afs) then dlookup afs "name" else PyVal.vnone)
  | _ => PyVal.vnone

/-- Translation of `_extract_team_scores` (fair_prob.py).  The source only
consults `yes_hint` in the mapping phase; `no_hint` is accepted and unused
exactly as in the source. -/
def extract_team_scores (fs : List (String × PyVal))
    (yes_hint no_hint : Option String) :
    Except String (Option Int × Option Int) :=
  match directScores fs [("yes_score", "no_score"), ("yesScore", "noScore"),
      ("team_yes_score", "team_no_score")] with
  | some (a, b) => Except.ok (some a, some b)
  | none =>
    match homeAwayScores fs [("home_score", "away_score"),
        ("homeScore", "awayScore"), ("homePoints", "awayPoints"),
        ("home", "away")] with
    | none => Except.ok (none, none)
    | some (hs, aw) =>
      match matchHint yes_hint (homeNameOf fs) with
      | Except.error e => Except.error e
      | Except.ok true => Except.ok (some hs, some aw)
      | Except.ok false =>
        match matchHint yes_hint (dlookup fs "home") with
        | Except.error e => Except.error e
        | Except.ok true => Except.ok (some hs, some aw)
        | Except.ok false =>
          match matchHint yes_hint (awayNameOf fs) with
          | Except.error e => Except.error e
          | Except.ok true => Except.ok (some aw, some hs)
          | Except.ok false =>
            match matchHint yes_hint (dlookup fs "away") with
            | Except.error e => Except.error e
            | Except.ok true => Except.ok (some aw, some hs)
            | Except.ok false => Except.ok (none, none)

/-- Market metadata: the typed view of the fields `_ensure_milestone` reads
from `GET /markets/ticker` (after the defensive `mkt.get("market", mkt)`
unwrapping). -/
structure MarketMeta where
  event_ticker : Option String
  yes_sub_title : Option String
  subtitle : Option String
  title : Option String
  no_sub_title : Option String

/-- Milestone metadata: the typed view of the fields `_ensure_milestone`
reads from one entry of `GET /milestones`.  The JSON keys are `id`, `type`,
`category` and `primary_event_tickers`. -/
structure Milestone where
  id : Option String
  mtype : Option String
  category : Option String
  primary_event_tickers : List String

/-- Injected exchange client of `LiveDataWinProbProvider` (fair_prob.py):
market metadata, milestone search by related event ticker, and live-data
fetch by live type and milestone id.  `Except.error` is a raised exception. -/
structure LiveApi where
  get_market : String → Except String MarketMeta
  get_milestones : String → Except String (List Milestone)
  get_live_data : String → String → Except String PyVal

/-- Milestone selection loop of `_ensure_milestone`: the first milestone
whose `primary_event_tickers` contains the event ticker, if any. -/
def chooseMilestone (event_ticker : String) : List Milestone → Option Milestone
  | [] => none
  | m :: rest =>
    if m.primary_event_tickers.contains event_ticker then some m
    else chooseMilestone event_ticker rest

/-- Translation of `LiveDataWinProbProvider._ensure_milestone` (fair_prob.py)
for a ticker not yet in the per-process cache.  The first component is the
returned `(milestone_id, live_type)` pair or `None`; the second component is
the `_name_hints` entry as left by the call (both `none` when the call raised
before the hint assignment). -/
def ensureMilestone (api : LiveApi) (ticker : String) :
    Option (String × String) × (Option String × Option String) :=
  match api.get_market ticker with
  | Except.error _ => (none, (none, none))
  | Except.ok market =>
    let yes_hint := pyOrS (pyOrS market.yes_sub_title market.subtitle) market.title
    let no_hint := pyOrS market.no_sub_title market.subtitle
    let hints := (yes_hint, no_hint)
    match market.event_ticker with
    | none => (none, hints)
    | some et =>
      if et = "" then (none, hints)
      else
        match api.get_milestones et with
        | Except.error _ => (none, hints)
        | Except.ok milestones =>
          match milestones with
          | [] => (none, hints)
          | m0 :: _ =>
            let chosen := (chooseMilestone et milestones).getD m0
            let live_type :=
              (pyOrS (pyOrS chosen.mtype chosen.category) (some "sports")).getD "sports"
            match chosen.id with
            | none => (none, hints)
            | some i => if i = "" then (none, hints) else (some (i, live_type), hints)

/-- Model coefficients of `LiveDataWinProbProvider` (fair_prob.py). -/
structure LiveCoefs where
  coef_score_diff : ℚ
  coef_time_left_min : ℚ
  coef_prior : ℚ

/-- Translation of `_sigmoid` (fair_prob.py) over the injected exponential. -/
def sigmoidQ (mexp : ℚ → ℚ) (x : ℚ) : ℚ :=
  1 / (1 + mexp (-x))

/-- Translation of `_logit` (fair_prob.py) over the injected logarithm: the
input is clamped away from 0 and 1 by `1e-6` before taking `log(p/(1-p))`. -/
def logitQ (mlog : ℚ → ℚ) (p : ℚ) : ℚ :=
  let pc := max (1 / 1000000) (min (1 - 1 / 1000000) p)
  mlog (pc / (1 - pc))

/-- Clamp to the unit interval: `max(0.0, min(1.0, x))`. -/
def clamp01 (x : ℚ) : ℚ :=
  max 0 (min 1 x)

/-- Payload unwrapping at the top of the `try` block of `get_fair_prob_yes`:
`data = live.get("live_data", live); details = data.get("details") or ...`
(with the empty dict as the `or` fallback). -/
def detailsFrom (live : PyVal) : Except String PyVal :=
  match pyGetD live "live_data" live with
  | Except.error e => Except.error e
  | Except.ok data =>
    match pyGetD data "details" PyVal.vnone with
    | Except.error e => Except.error e
    | Except.ok d0 => Except.ok (pyOrV d0 (PyVal.vdict []))

/-- The fourth clock source of `get_fair_prob_yes`:
`(details.get("game") or ...).get("clock")` guarded by
`isinstance(details.get("game"), dict)`. -/
def gameClock (fs : List (String × PyVal)) : PyVal :=
  match dlookup fs "game" with
  | PyVal.vdict gfs =>
    if pyTruthy (PyVal.vdict gfs) then dlookup gfs "clock" else PyVal.vnone
  | _ => PyVal.vnone

/-- Body of the `try` block of `get_fair_prob_yes` (fair_prob.py lines
203-234) once a milestone is resolved; an `Except.error` is a raised
exception, which the caller catches and turns into the prior fallback. -/
def liveTryBody (api : LiveApi) (coefs : LiveCoefs) (mexp mlog : ℚ → ℚ)
    (hints : Option String × Option String) (ms_id live_type : String)
    (prior : ℚ) : Except String ℚ :=
  match api.get_live_data live_type ms_id with
  | Except.error e => Except.error e
  | Except.ok live =>
    match detailsFrom live with
    | Except.error e => Except.error e
    | Except.ok details =>
      match details with
      | PyVal.vdict fs =>
        match extract_team_scores fs hints.1 hints.2 with
        | Except.error e => Except.error e
        | Except.ok (some score_yes, some score_no) =>
          let t_left := pyOrI (pyOrI (pyOrI
              (parse_clock_to_seconds (dlookup fs "time_remaining"))
              (parse_clock_to_seconds (dlookup fs "clock")))
              (parse_clock_to_seconds (dlookup fs "timeRemaining")))
              (parse_clock_to_seconds (gameClock fs))
          let diff : ℚ := ((score_yes - score_no : Int) : ℚ)
          let t_min : ℚ :=
            match t_left with
            | some t => (t : ℚ) / 60
            | none => 0
          let x := coefs.coef_prior * logitQ mlog prior +
            coefs.coef_score_diff * diff + coefs.coef_time_left_min * t_min
          Except.ok (clamp01 (sigmoidQ mexp x))
        | Except.ok _ => Except.ok (clamp01 prior)
      | _ => Except.ok (clamp01 prior)

/-- Translation of `LiveDataWinProbProvider.get_fair_prob_yes` (fair_prob.py)
for a ticker not previously cached: no configured prior gives no estimate; a
failed milestone resolution or any exception in the live path gives the
clamped prior; otherwise the clamped in-play model value. -/
def liveGetFairProbYes (api : LiveApi) (coefs : LiveCoefs) (mexp mlog : ℚ → ℚ)
    (fair_probs : String → Option ℚ) (ticker : String) : Option ℚ :=
  match fair_probs ticker with
  | none => none
  | some prior =>
    match ensureMilestone api ticker with
    | (none, _) => some (clamp01 prior)
    | (some (ms_id, live_type), hints) =>
      match liveTryBody api coefs mexp mlog hints ms_id live_type prior with
      | Except.ok p => some p
      | Except.error _ => some (clamp01 prior)

/-- Translation of `StaticFairProbProvider.get_fair_prob_yes`
(fair_prob.py): table lookup clamped to the unit interval. -/
def staticGetFairProbYes (fair_probs_yes : String → Option ℚ)
    (ticker : String) : Option ℚ :=
  (fair_probs_yes ticker).map clamp01

/-! ## Concrete evaluation fixtures -/

/-- Decision-engine configuration for the concrete runs: edge threshold 0.05,
fee kind `none`, default fee rates, zero EV floor, maker-only disabled (so
the candidate price is the raw ask, matching the spec boundary numbers). -/
def evalCfg : FeeAwareConfig :=
  { edge_threshold := 1 / 20, fee_kind := "none", taker_fee_rate := 7 / 100,
    maker_fee_rate := 7 / 400, min_net_ev_per_contract := 0, post_only := false }

/-- Fair-probability provider for the concrete runs: 0.50 for the test
market, no estimate elsewhere. -/
def evalProvider : String → Option ℚ :=
  fun t => if t = "KXTEST" then some (1 / 2) else none

/-- Snapshot on which the YES candidate and the NO candidate each
individually meet the edge and net-EV thresholds of `evalCfg` (a crossed
book, as the spec testable property requires constructing). -/
def snapBoth : MarketSnapshot :=
  { ticker := "KXTEST",
    best := { yes_bid := some 60, yes_ask := some 40,
              no_bid := some 60, no_ask := some 40 } }

/-- Snapshot with `yes_ask = 45` (edge exactly 0.05 against fair 0.50). -/
def snapAsk45 : MarketSnapshot :=
  { ticker := "KXTEST",
    best := { yes_bid := some 40, yes_ask := some 45,
              no_bid := some 55, no_ask := some 60 } }

/-- Snapshot with `yes_ask = 46` (edge 0.04 against fair 0.50). -/
def snapAsk46 : MarketSnapshot :=
  { ticker := "KXTEST",
    best := { yes_bid := some 40, yes_ask := some 46,
              no_bid := some 54, no_ask := some 60 } }

/-- Risk limits for the concrete executor runs. -/
def evalLimits : RiskLimits :=
  { max_order_count := 10, max_position_per_ticker := 50 }

/-- Live executor environment: the real risk gate with no open positions,
paper mode off, and a transport whose submission would succeed with exchange
order id `EXCH-42`. -/
def liveEnv : ExecEnv :=
  { approve := riskApprove evalLimits [], paper := false,
    create_limit_order := fun _ _ => Except.ok (some "EXCH-42") }

/-- Paper executor environment: same risk gate, paper mode on. -/
def paperEnv : ExecEnv :=
  { approve := riskApprove evalLimits [], paper := true,
    create_limit_order := fun _ _ => Except.ok (some "EXCH-42") }

/-- A proposal that passes every risk check and supplies no idempotency
key of its own. -/
def goodIntent : OrderIntent :=
  { ticker := "KXTEST", side := "yes", action := "buy", count := 5,
    price_cents := 44 }

/-- A proposal with `count = 0`, rejected by the first risk check. -/
def zeroCountIntent : OrderIntent :=
  { ticker := "KXTEST", side := "yes", action := "buy", count := 0,
    price_cents := 44 }

/-- Two distinct fresh-randomness streams standing for the `uuid4` draws of
two separate `Executor.execute` calls. -/
def uuidsA : Nat → String := fun _ => "aaaabbbbccccdddd"

/-- Second fresh-randomness stream, differing from `uuidsA`. -/
def uuidsB : Nat → String := fun _ => "ddddccccbbbbaaaa"

/-- Exchange client whose milestone-metadata lookup raises (HTTP failure). -/
def c9api : LiveApi :=
  { get_market := fun _ => Except.error "HTTP 500",
    get_milestones := fun _ => Except.error "HTTP 500",
    get_live_data := fun _ _ => Except.error "HTTP 500" }

/-- Live-model coefficients with the source defaults. -/
def c9coefs : LiveCoefs :=
  { coef_score_diff := 12 / 100, coef_time_left_min := -3 / 100, coef_prior := 1 }

/-- Static prior table with an out-of-range prior 1.5 for the test market,
so the clamped fallback is visibly 1. -/
def c9probs : String → Option ℚ :=
  fun t => if t = "KXGAME" then some (3 / 2) else none

/-- Simple-strategy configuration for the concrete run: fair 0.60 for the
test market, edge threshold 0.04. -/
def c10cfg : FairValueConfig :=
  { fair_probs := fun t => if t = "KXTEST" then some (3 / 5) else none,
    edge_threshold := 1 / 25 }

/-- Snapshot on which the simple strategy emits one buy-YES intent. -/
def c10snap : MarketSnapshot :=
  { ticker := "KXTEST",
    best := { yes_bid := some 40, yes_ask := some 45,
              no_bid := some 55, no_ask := some 60 } }

/-- The intent the simple strategy emits on `c10snap` under `c10cfg`. -/
def c10intent : OrderIntent :=
  { ticker := "KXTEST", side := "yes", action := "buy", count := 5,
    price_cents := 44, reason := "fair > ask + thr" }

/-- Concrete order book with ascending levels on both sides. -/
def c5ob : Orderbook :=
  { yes := [(10, 5), (40, 2)], no := [(55, 1)] }

/-! ## Helper lemmas -/

theorem acceptsKwargs_false :
    dataclassAcceptsKwargs orderIntentFieldNames feeAwareIntentKwargNames = false := by
  decide

theorem mkOrderIntentKw_feeAware (v : OrderIntent) :
    mkOrderIntentKw feeAwareIntentKwargNames v = Except.error unexpectedKwargMsg := by
  simp [mkOrderIntentKw, acceptsKwargs_false]

theorem fee_none (p c : Int) (tr mr : ℚ) :
    kalshi_fee_dollars p c "none" tr mr = 0 := by
  have h1 : ¬ ("none" = "taker") := by decide
  have h2 : ¬ ("none" = "maker") := by decide
  unfold kalshi_fee_dollars
  split_ifs with h
  · rfl
  · norm_num [round_up_to_cent, epsTwelve, h1, h2]

/-! ## Claim theorems -/

/-- C1 (code_bug): on a snapshot where the BUY-YES and BUY-NO candidates each
individually meet the edge and net-EV thresholds (first two conjuncts),
`FeeAwareFairValueStrategy.generate` does not emit exactly one proposal: the
first qualifying candidate constructs `OrderIntent` with the undeclared
keyword `post_only`, so `generate` raises `TypeError` and produces no
proposal list at all. -/
theorem c1_both_qualify_raises_typeerror :
    ((1 : ℚ) / 2 - (40 : ℚ) / 100 ≥ evalCfg.edge_threshold ∧
      net_ev_per_contract ((1 : ℚ) / 2) 40 evalCfg.fee_kind
        evalCfg.taker_fee_rate evalCfg.maker_fee_rate ≥
        evalCfg.min_net_ev_per_contract) ∧
    (1 - (1 : ℚ) / 2 - (40 : ℚ) / 100 ≥ evalCfg.edge_threshold ∧
      net_ev_per_contract (1 - (1 : ℚ) / 2) 40 evalCfg.fee_kind
        evalCfg.taker_fee_rate evalCfg.maker_fee_rate ≥
        evalCfg.min_net_ev_per_contract) ∧
    feeAwareGenerate evalCfg evalProvider 5 [snapBoth] =
      Except.error unexpectedKwargMsg := by
  refine ⟨⟨by norm_num [evalCfg], ?_⟩, ⟨by norm_num [evalCfg], ?_⟩, ?_⟩
  · norm_num [evalCfg, net_ev_per_contract, fee_none]
  · norm_num [evalCfg, net_ev_per_contract, fee_none]
  · norm_num [feeAwareGenerate, feeAwareStep, feeAwareNoCand, evalCfg,
      evalProvider, snapBoth, target_px, net_ev_per_contract, fee_none,
      mkOrderIntentKw_feeAware, List.foldlM]

/-- C2 (code_bug): with edge threshold 0.05, fair 0.50, fee kind `none` and
maker-only disabled, the snapshot with `yes_ask = 45` (edge exactly 0.05)
does not produce a buy-YES proposal as claimed: the qualifying candidate
raises `TypeError` on the `post_only` keyword.  The `yes_ask = 46` snapshot
(edge 0.04) produces no proposal, as claimed. -/
theorem c2_decision_boundary :
    feeAwareGenerate evalCfg evalProvider 5 [snapAsk45] =
      Except.error unexpectedKwargMsg ∧
    feeAwareGenerate evalCfg evalProvider 5 [snapAsk46] = Except.ok [] := by
  constructor
  · norm_num [feeAwareGenerate, feeAwareStep, feeAwareNoCand, evalCfg,
      evalProvider, snapAsk45, target_px, net_ev_per_contract, fee_none,
      mkOrderIntentKw_feeAware, List.foldlM]
  · norm_num [feeAwareGenerate, feeAwareStep, feeAwareNoCand, evalCfg,
      evalProvider, snapAsk46, target_px, net_ev_per_contract, fee_none,
      mkOrderIntentKw_feeAware, List.foldlM]

/-- C3 (code_bug): the construction sites in
`FeeAwareFairValueStrategy.generate` pass the keyword `post_only`, but
`post_only` is not a field of the models.py `OrderIntent` dataclass, so the
dataclass constructor rejects the keywords, and the executor attribute read
`it.post_only` raises for every intent.  No proposal therefore carries a
maker-only flag. -/
theorem c3_post_only_flag_missing :
    "post_only" ∈ feeAwareIntentKwargNames ∧
    "post_only" ∉ orderIntentFieldNames ∧
    dataclassAcceptsKwargs orderIntentFieldNames feeAwareIntentKwargNames = false ∧
    ∀ it : OrderIntent, orderIntentGetPostOnly it = Except.error postOnlyAttrErrMsg := by
  exact ⟨by decide, by decide, acceptsKwargs_false, fun it => rfl⟩

/-- C7 (code_bug): a proposal without its own idempotency key gets a freshly
drawn random key on every `Executor.execute` call (first conjunct: the
prepared client ids of two attempts differ), and in fact no live submission
happens at all, because the executor raises `AttributeError` on
`it.post_only` before calling the transport (second and third conjuncts: both
attempts end in `EXEC_ERROR` although the injected transport would succeed). -/
theorem c7_idempotency_key_not_stable :
    executorClientId goodIntent "aaaabbbbccccdddd" ≠
      executorClientId goodIntent "ddddccccbbbbaaaa" ∧
    executorExecute liveEnv uuidsA [goodIntent] =
      [{ intent := goodIntent, ok := false,
         detail := "EXEC_ERROR: " ++ postOnlyAttrErrMsg }] ∧
    executorExecute liveEnv uuidsB [goodIntent] =
      [{ intent := goodIntent, ok := false,
         detail := "EXEC_ERROR: " ++ postOnlyAttrErrMsg }] := by
  exact ⟨by decide, rfl, rfl⟩

/-- C8 (code_bug): the risk-rejection and paper outcomes behave as claimed
(third conjunct: a rejected proposal yields a failure carrying the reason and
does not abort the following proposal), but the `Submitted` state is
unreachable: an approved live proposal yields `EXEC_ERROR` (AttributeError on
the missing `post_only` field) even though the injected transport would
return order id `EXCH-42` (first and second conjuncts). -/
theorem c8_live_submitted_unreachable :
    riskApprove evalLimits [] goodIntent = none ∧
    executorExecute liveEnv uuidsA [goodIntent] =
      [{ intent := goodIntent, ok := false,
         detail := "EXEC_ERROR: " ++ postOnlyAttrErrMsg }] ∧
    executorExecute paperEnv uuidsA [zeroCountIntent, goodIntent] =
      [{ intent := zeroCountIntent, ok := false,
         detail := "RISK_REJECT: count<=0" },
       { intent := goodIntent, ok := true,
         detail := "PAPER_OK (no order sent)" }] := by
  exact ⟨rfl, rfl, rfl⟩

theorem round_up_to_cent_ge (d : ℚ) : d - epsTwelve ≤ round_up_to_cent d := by
  unfold round_up_to_cent
  rw [le_div_iff₀ (by norm_num : (0 : ℚ) < 100)]
  exact Int.le_ceil _

theorem round_up_to_cent_nonneg (d : ℚ) (hd : 0 ≤ d) :
    0 ≤ round_up_to_cent d := by
  unfold round_up_to_cent
  have he : (100 : ℚ) * epsTwelve < 1 := by norm_num [epsTwelve]
  have h1 : ((-1 : ℤ) : ℚ) < (d - epsTwelve) * 100 := by push_cast; nlinarith
  have h2 : (0 : ℤ) ≤ Int.ceil ((d - epsTwelve) * 100) := by
    have := Int.lt_ceil.mpr h1
    omega
  exact div_nonneg (by exact_mod_cast h2) (by norm_num)

theorem rawFee_nonneg (p c : Int) (kind : String) (tr mr : ℚ)
    (ht : 0 ≤ tr) (hm : 0 ≤ mr) (hc : 0 < c) :
    0 ≤ rawFee p c kind tr mr := by
  simp only [rawFee]
  have hP0 : (0 : ℚ) ≤ max 0 (min (99 / 100) ((p : ℚ) / 100)) := le_max_left _ _
  have hP1 : max 0 (min (99 / 100) ((p : ℚ) / 100)) ≤ 99 / 100 :=
    max_le (by norm_num) (min_le_left _ _)
  have hrate : (0 : ℚ) ≤
      (if kind = "taker" then tr else if kind = "maker" then mr else 0) := by
    split_ifs
    · exact ht
    · exact hm
    · exact le_refl 0
  have hcq : (0 : ℚ) ≤ (c : ℚ) := by exact_mod_cast hc.le
  have h1P : (0 : ℚ) ≤ 1 - max 0 (min (99 / 100) ((p : ℚ) / 100)) := by linarith
  exact mul_nonneg (mul_nonneg (mul_nonneg hrate hcq) hP0) h1P

/-- C4 counterexample: with a non-negative taker rate whose raw fee lands
just above an exact cent, the `1e-12` pre-subtraction makes the rounded fee
0.01, which is strictly BELOW the unrounded raw value — refuting the claim
that the result is never less than the raw value. -/
theorem c4_fee_below_raw_counterexample :
    kalshi_fee_dollars 50 1 "taker" (1 / 25 + 1 / 2500000000000) 0 <
      rawFee 50 1 "taker" (1 / 25 + 1 / 2500000000000) 0 := by
  have hc : (Int.ceil ((99999999991 : ℚ) / 100000000000)) = 1 := by
    rw [Int.ceil_eq_iff]
    constructor
    · norm_num
    · norm_num
  norm_num [kalshi_fee_dollars, rawFee, round_up_to_cent, epsTwelve, hc]

/-- C4 (corrected): for prices in 1..99 and non-negative rates, the fee is 0
for non-positive counts; otherwise it is the raw value `rate*count*P*(1-P)`
rounded with `_round_up_to_cent`, it is non-negative, `fee * 100` is an
integer, and the fee is never less than the raw value MINUS the `1e-12`
guard epsilon (it can dip below the raw value itself by up to `1e-12`; see
the counterexample). -/
theorem c4_fee_rounding_properties (price_cents count : Int) (kind : String)
    (taker_rate maker_rate : ℚ) (hp1 : 1 ≤ price_cents) (hp2 : price_cents ≤ 99)
    (ht : 0 ≤ taker_rate) (hm : 0 ≤ maker_rate) :
    (count ≤ 0 →
      kalshi_fee_dollars price_cents count kind taker_rate maker_rate = 0) ∧
    (0 < count →
      kalshi_fee_dollars price_cents count kind taker_rate maker_rate =
        round_up_to_cent (rawFee price_cents count kind taker_rate maker_rate) ∧
      0 ≤ kalshi_fee_dollars price_cents count kind taker_rate maker_rate ∧
      rawFee price_cents count kind taker_rate maker_rate - epsTwelve ≤
        kalshi_fee_dollars price_cents count kind taker_rate maker_rate ∧
      ∃ z : ℤ,
        kalshi_fee_dollars price_cents count kind taker_rate maker_rate * 100 =
          (z : ℚ)) := by
  constructor
  · intro h
    simp [kalshi_fee_dollars, h]
  · intro h
    have hne : ¬ (count ≤ 0) := by omega
    have heq : kalshi_fee_dollars price_cents count kind taker_rate maker_rate =
        round_up_to_cent (rawFee price_cents count kind taker_rate maker_rate) := by
      simp [kalshi_fee_dollars, rawFee, hne]
    refine ⟨heq, ?_, ?_, ?_⟩
    · rw [heq]
      exact round_up_to_cent_nonneg _
        (rawFee_nonneg _ _ _ _ _ ht hm h)
    · rw [heq]
      exact round_up_to_cent_ge _
    · rw [heq]
      unfold round_up_to_cent
      exact ⟨Int.ceil ((rawFee price_cents count kind taker_rate maker_rate -
          epsTwelve) * 100),
        div_mul_cancel₀ _ (by norm_num : (100 : ℚ) ≠ 0)⟩

/-- C4 witness: the amended properties evaluated at price 50, count 3, maker
fees at the default rate. -/
theorem c4_fee_rounding_properties_witness :
    0 ≤ kalshi_fee_dollars 50 3 "maker" (7 / 100) (7 / 400) ∧
    rawFee 50 3 "maker" (7 / 100) (7 / 400) - epsTwelve ≤
      kalshi_fee_dollars 50 3 "maker" (7 / 100) (7 / 400) := by
  have h := (c4_fee_rounding_properties 50 3 "maker" (7 / 100) (7 / 400)
    (by norm_num) (by norm_num) (by norm_num) (by norm_num)).2 (by norm_num)
  exact ⟨h.2.1, h.2.2.1⟩

theorem pairwise_le_getLast (l : List (Int × Int))
    (h : l.Pairwise (fun a b => a.1 ≤ b.1)) (p q : Int)
    (hl : l.getLast? = some (p, q)) : ∀ x ∈ l, x.1 ≤ p := by
  induction l with
  | nil => simp at hl
  | cons a t ih =>
    rcases List.pairwise_cons.mp h with ⟨ha, ht⟩
    cases t with
    | nil =>
      simp only [List.getLast?_singleton, Option.some.injEq] at hl
      intro x hx
      simp only [List.mem_singleton] at hx
      subst hx
      rw [hl]
    | cons b t2 =>
      rw [List.getLast?_cons_cons] at hl
      intro x hx
      rcases List.mem_cons.mp hx with rfl | hx2
      · exact ha _ (List.mem_of_getLast?_eq_some hl)
      · exact ih ht hl x hx2

/-- C5 (confirmed): for an order book whose per-side levels are sorted
ascending by price, the best bid of a side is the price of the last level
(and it bounds every level), absent exactly when the side is empty; the
derived `yes_ask` is `100 - no_bid` and absent exactly when `no_bid` is
absent, and symmetrically for `no_ask` and `yes_bid`. -/
theorem c5_best_prices_reciprocity (ob : Orderbook)
    (hy : ob.yes.Pairwise (fun a b => a.1 ≤ b.1))
    (hn : ob.no.Pairwise (fun a b => a.1 ≤ b.1)) :
    ((best_prices_from_orderbook ob).yes_bid = none ↔ ob.yes = []) ∧
    ((best_prices_from_orderbook ob).no_bid = none ↔ ob.no = []) ∧
    (∀ p q, ob.yes.getLast? = some (p, q) →
      (best_prices_from_orderbook ob).yes_bid = some p ∧ ∀ x ∈ ob.yes, x.1 ≤ p) ∧
    (∀ p q, ob.no.getLast? = some (p, q) →
      (best_prices_from_orderbook ob).no_bid = some p ∧ ∀ x ∈ ob.no, x.1 ≤ p) ∧
    (best_prices_from_orderbook ob).yes_ask =
      ((best_prices_from_orderbook ob).no_bid).map (fun b => 100 - b) ∧
    (best_prices_from_orderbook ob).no_ask =
      ((best_prices_from_orderbook ob).yes_bid).map (fun b => 100 - b) ∧
    ((best_prices_from_orderbook ob).yes_ask = none ↔
      (best_prices_from_orderbook ob).no_bid = none) ∧
    ((best_prices_from_orderbook ob).no_ask = none ↔
      (best_prices_from_orderbook ob).yes_bid = none) := by
  refine ⟨?_, ?_, ?_, ?_, rfl, rfl, ?_, ?_⟩
  · simp [best_prices_from_orderbook, best_bid]
  · simp [best_prices_from_orderbook, best_bid]
  · intro p q hl
    exact ⟨by simp [best_prices_from_orderbook, best_bid, hl],
      pairwise_le_getLast _ hy p q hl⟩
  · intro p q hl
    exact ⟨by simp [best_prices_from_orderbook, best_bid, hl],
      pairwise_le_getLast _ hn p q hl⟩
  · simp [best_prices_from_orderbook, best_bid]
  · simp [best_prices_from_orderbook, best_bid]

/-- C5 witness: the reciprocity and last-level extraction on a concrete
ascending book. -/
theorem c5_best_prices_reciprocity_witness :
    (best_prices_from_orderbook c5ob).yes_bid = some 40 ∧
    (best_prices_from_orderbook c5ob).yes_ask =
      ((best_prices_from_orderbook c5ob).no_bid).map (fun b => 100 - b) := by
  have h := c5_best_prices_reciprocity c5ob
    (by simp [c5ob]) (by simp [c5ob])
  exact ⟨(h.2.2.1 40 2 rfl).1, h.2.2.2.2.1⟩

/-- C6 (confirmed): `RiskManager.approve` applies its checks in the fixed
source order — count positive, count within the maximum order size,
projected absolute position within the per-ticker maximum, price within
1..99, side/action valid — short-circuiting on the first failure with the
corresponding reason string, and approves (returns `none`) exactly when all
checks pass. -/
theorem c6_risk_gate_checks (limits : RiskLimits)
    (positions : List PositionEntry) (it : OrderIntent) :
    (it.count ≤ 0 → riskApprove limits positions it = some "count<=0") ∧
    (0 < it.count → limits.max_order_count < it.count →
      riskApprove limits positions it =
        some ("count>" ++ toString limits.max_order_count)) ∧
    (0 < it.count → it.count ≤ limits.max_order_count →
      limits.max_position_per_ticker < |current_position positions| + it.count →
      riskApprove limits positions it =
        some ("projected_position(" ++
          toString (|current_position positions| + it.count) ++ ")>" ++
          toString limits.max_position_per_ticker)) ∧
    (0 < it.count → it.count ≤ limits.max_order_count →
      |current_position positions| + it.count ≤ limits.max_position_per_ticker →
      ¬ (1 ≤ it.price_cents ∧ it.price_cents ≤ 99) →
      riskApprove limits positions it = some "price must be 1..99 cents") ∧
    (0 < it.count → it.count ≤ limits.max_order_count →
      |current_position positions| + it.count ≤ limits.max_position_per_ticker →
      1 ≤ it.price_cents → it.price_cents ≤ 99 →
      ¬ ((it.side = "yes" ∨ it.side = "no") ∧
        (it.action = "buy" ∨ it.action = "sell")) →
      riskApprove limits positions it = some "invalid side/action") ∧
    (riskApprove limits positions it = none ↔
      (0 < it.count ∧ it.count ≤ limits.max_order_count ∧
        |current_position positions| + it.count ≤ limits.max_position_per_ticker ∧
        1 ≤ it.price_cents ∧ it.price_cents ≤ 99 ∧
        (it.side = "yes" ∨ it.side = "no") ∧
        (it.action = "buy" ∨ it.action = "sell"))) := by
  refine ⟨?_, ?_, ?_, ?_, ?_, ?_⟩
  · intro hc
    unfold riskApprove
    rw [if_pos hc]
  · intro hc1 hc2
    unfold riskApprove
    rw [if_neg (by omega), if_pos hc2]
  · intro hc1 hc2 hc3
    unfold riskApprove
    rw [if_neg (by omega), if_neg (by omega), if_pos hc3]
  · intro hc1 hc2 hc3 hc4
    unfold riskApprove
    rw [if_neg (by omega), if_neg (by omega), if_neg (by omega), if_pos hc4]
  · intro hc1 hc2 hc3 hc4 hc5 hc6
    unfold riskApprove
    rw [if_neg (by omega), if_neg (by omega), if_neg (by omega),
      if_neg (not_not_intro ⟨hc4, hc5⟩), if_pos hc6]
  · unfold riskApprove
    constructor
    · intro hx
      by_cases k1 : it.count ≤ 0
      · rw [if_pos k1] at hx
        simp at hx
      · by_cases k2 : it.count > limits.max_order_count
        · rw [if_neg k1, if_pos k2] at hx
          simp at hx
        · by_cases k3 : |current_position positions| + it.count >
              limits.max_position_per_ticker
          · rw [if_neg k1, if_neg k2, if_pos k3] at hx
            simp at hx
          · by_cases k4 : ¬ (1 ≤ it.price_cents ∧ it.price_cents ≤ 99)
            · rw [if_neg k1, if_neg k2, if_neg k3, if_pos k4] at hx
              simp at hx
            · by_cases k5 : ¬ ((it.side = "yes" ∨ it.side = "no") ∧
                  (it.action = "buy" ∨ it.action = "sell"))
              · rw [if_neg k1, if_neg k2, if_neg k3, if_neg k4, if_pos k5] at hx
                simp at hx
              · have hp := not_not.mp k4
                have hs := not_not.mp k5
                exact ⟨by omega, by omega, by omega, hp.1, hp.2, hs.1, hs.2⟩
    · rintro ⟨k1, k2, k3, k4, k5, k6, k7⟩
      rw [if_neg (by omega), if_neg (by omega), if_neg (by omega),
        if_neg (not_not_intro ⟨k4, k5⟩), if_neg (not_not_intro ⟨k6, k7⟩)]

/-- C6 witness: the first check fires on a zero-count intent. -/
theorem c6_risk_gate_checks_witness :
    riskApprove evalLimits [] zeroCountIntent = some "count<=0" := by
  exact (c6_risk_gate_checks evalLimits [] zeroCountIntent).1 (by norm_num [zeroCountIntent])

theorem liveGetFairProbYes_eq (api : LiveApi) (coefs : LiveCoefs)
    (mexp mlog : ℚ → ℚ) (fair_probs : String → Option ℚ) (ticker : String)
    (prior : ℚ) (hprior : fair_probs ticker = some prior) :
    liveGetFairProbYes api coefs mexp mlog fair_probs ticker =
      match ensureMilestone api ticker with
      | (none, _) => some (clamp01 prior)
      | (some (ms_id, live_type), hints) =>
        match liveTryBody api coefs mexp mlog hints ms_id live_type prior with
        | Except.ok p => some p
        | Except.error _ => some (clamp01 prior) := by
  unfold liveGetFairProbYes
  rw [hprior]

/-- C9 (confirmed): for a market with a configured static prior, the live
provider returns exactly the clamped static prior when the milestone lookup
fails, when the live-data fetch raises, when any later parse step raises,
or when the score fields cannot be extracted from the payload; and it
returns an estimate whenever a prior is configured (no estimate only when no
prior is configured). -/
theorem c9_live_provider_fallback (api : LiveApi) (coefs : LiveCoefs)
    (mexp mlog : ℚ → ℚ) (fair_probs : String → Option ℚ) (ticker : String)
    (prior : ℚ) (hprior : fair_probs ticker = some prior) :
    (liveGetFairProbYes api coefs mexp mlog fair_probs ticker).isSome = true ∧
    ((ensureMilestone api ticker).1 = none →
      liveGetFairProbYes api coefs mexp mlog fair_probs ticker =
        some (clamp01 prior)) ∧
    (∀ ms_id live_type hints,
      ensureMilestone api ticker = (some (ms_id, live_type), hints) →
      (∀ e, api.get_live_data live_type ms_id = Except.error e →
        liveGetFairProbYes api coefs mexp mlog fair_probs ticker =
          some (clamp01 prior)) ∧
      (∀ e, liveTryBody api coefs mexp mlog hints ms_id live_type prior =
          Except.error e →
        liveGetFairProbYes api coefs mexp mlog fair_probs ticker =
          some (clamp01 prior)) ∧
      (∀ live fs sy sn, api.get_live_data live_type ms_id = Except.ok live →
        detailsFrom live = Except.ok (PyVal.vdict fs) →
        extract_team_scores fs hints.1 hints.2 = Except.ok (sy, sn) →
        (sy = none ∨ sn = none) →
        liveGetFairProbYes api coefs mexp mlog fair_probs ticker =
          some (clamp01 prior))) := by
  refine ⟨?_, ?_, ?_⟩
  · rw [liveGetFairProbYes_eq api coefs mexp mlog fair_probs ticker prior hprior]
    rcases h : ensureMilestone api ticker with ⟨res, hints⟩
    rcases res with _ | ⟨ms, lt⟩
    · simp
    · rcases hb : liveTryBody api coefs mexp mlog hints ms lt prior with e | p <;>
        simp [hb]
  · intro hnone
    rw [liveGetFairProbYes_eq api coefs mexp mlog fair_probs ticker prior hprior]
    rcases h : ensureMilestone api ticker with ⟨res, hints⟩
    rcases res with _ | ⟨ms, lt⟩
    · rfl
    · rw [h] at hnone
      simp at hnone
  · intro ms lt hints h
    refine ⟨?_, ?_, ?_⟩
    · intro e he
      have hbody : liveTryBody api coefs mexp mlog hints ms lt prior =
          Except.error e := by
        unfold liveTryBody
        rw [he]
      rw [liveGetFairProbYes_eq api coefs mexp mlog fair_probs ticker prior hprior]
      simp only [h, hbody]
    · intro e he
      rw [liveGetFairProbYes_eq api coefs mexp mlog fair_probs ticker prior hprior]
      simp only [h, he]
    · intro live fs sy sn hlive hdet hext hor
      have hbody : liveTryBody api coefs mexp mlog hints ms lt prior =
          Except.ok (clamp01 prior) := by
        unfold liveTryBody
        simp only [hlive, hdet, hext]
        rcases hor with rfl | rfl
        · rfl
        · cases sy <;> rfl
      rw [liveGetFairProbYes_eq api coefs mexp mlog fair_probs ticker prior hprior]
      simp only [h, hbody]

/-- C9 witness: a failing metadata lookup with prior 1.5 yields the clamped
prior. -/
theorem c9_live_provider_fallback_witness :
    liveGetFairProbYes c9api c9coefs (fun q => q) (fun q => q) c9probs "KXGAME" =
      some (clamp01 (3 / 2)) := by
  exact (c9_live_provider_fallback c9api c9coefs (fun q => q) (fun q => q)
    c9probs "KXGAME" (3 / 2) rfl).2.1 rfl

theorem simpleStep_mem (cfg : FairValueConfig) (order_count : Int)
    (acc : List OrderIntent) (s : MarketSnapshot) :
    ∀ i ∈ simpleStep cfg order_count acc s,
      i ∈ acc ∨ (i.action = "buy" ∧ i.count = order_count ∧ 1 ≤ i.price_cents) := by
  intro i hi
  simp only [simpleStep] at hi
  repeat' split at hi
  all_goals try simp only [List.mem_append, List.mem_singleton] at hi
  all_goals
    first
      | exact Or.inl hi
      | (rcases hi with hi | rfl
         · exact Or.inl hi
         · exact Or.inr ⟨rfl, rfl, le_max_left 1 _⟩)
      | (rcases hi with (hi | rfl) | rfl
         · exact Or.inl hi
         · exact Or.inr ⟨rfl, rfl, le_max_left 1 _⟩
         · exact Or.inr ⟨rfl, rfl, le_max_left 1 _⟩)

theorem simpleGenerate_invariant (cfg : FairValueConfig) (order_count : Int)
    (snaps : List MarketSnapshot) :
    ∀ i ∈ simpleGenerate cfg order_count snaps,
      i.action = "buy" ∧ i.count = order_count ∧ 1 ≤ i.price_cents := by
  have key : ∀ (ss : List MarketSnapshot) (acc : List OrderIntent),
      (∀ i ∈ acc, i.action = "buy" ∧ i.count = order_count ∧ 1 ≤ i.price_cents) →
      ∀ i ∈ ss.foldl (simpleStep cfg order_count) acc,
        i.action = "buy" ∧ i.count = order_count ∧ 1 ≤ i.price_cents := by
    intro ss
    induction ss with
    | nil =>
      intro acc hacc i hi
      exact hacc i hi
    | cons s rest ih =>
      intro acc hacc i hi
      rw [List.foldl_cons] at hi
      refine ih _ (fun j hj => ?_) i hi
      rcases simpleStep_mem cfg order_count acc s j hj with hmem | hmem
      · exact hacc j hmem
      · exact hmem
  intro i hi
  exact key snaps [] (by simp) i hi

theorem feeAwareStep_ok (cfg : FeeAwareConfig) (provider : String → Option ℚ)
    (order_count : Int) (acc : List OrderIntent) (s : MarketSnapshot)
    (l : List OrderIntent)
    (h : feeAwareStep cfg provider order_count acc s = Except.ok l) :
    l = acc := by
  have hno : ∀ p_fair l2,
      feeAwareNoCand cfg p_fair order_count acc s = Except.ok l2 → l2 = acc := by
    intro p_fair l2 h2
    simp only [feeAwareNoCand, mkOrderIntentKw_feeAware] at h2
    repeat' split at h2
    all_goals simp_all
  simp only [feeAwareStep, mkOrderIntentKw_feeAware] at h
  repeat' split at h
  all_goals first
    | (exact hno _ _ h)
    | simp_all

theorem feeAwareGenerate_ok (cfg : FeeAwareConfig) (provider : String → Option ℚ)
    (order_count : Int) (snaps : List MarketSnapshot) (l : List OrderIntent)
    (h : feeAwareGenerate cfg provider order_count snaps = Except.ok l) :
    l = [] := by
  have key : ∀ (ss : List MarketSnapshot) (acc : List OrderIntent),
      ss.foldlM (feeAwareStep cfg provider order_count) acc = Except.ok l →
      l = acc := by
    intro ss
    induction ss with
    | nil =>
      intro acc h2
      have h3 : (Except.ok acc : Except String (List OrderIntent)) =
          Except.ok l := h2
      exact (Except.ok.inj h3).symm
    | cons s rest ih =>
      intro acc h2
      rw [List.foldlM_cons] at h2
      cases hstep : feeAwareStep cfg provider order_count acc s with
      | error e =>
        rw [hstep] at h2
        have h3 : (Except.error e : Except String (List OrderIntent)) =
            Except.ok l := h2
        exact Except.noConfusion h3
      | ok acc2 =>
        rw [hstep] at h2
        have h3 : rest.foldlM (feeAwareStep cfg provider order_count) acc2 =
            Except.ok l := h2
        rw [ih acc2 h3, feeAwareStep_ok cfg provider order_count acc s acc2 hstep]
  exact key snaps [] h

/-- C10 (confirmed): every proposal produced by either decision-engine
variant has action "buy", the strategy-configured contract count, and a
price of at least 1 cent.  (For the fee-aware variant every successfully
returned list is empty — a qualifying candidate raises `TypeError`, see
C1/C3 — so its half holds vacuously; the simple variant emits real
proposals satisfying the invariant.) -/
theorem c10_intent_invariants (scfg : FairValueConfig) (fcfg : FeeAwareConfig)
    (provider : String → Option ℚ) (order_count : Int)
    (snaps fsnaps : List MarketSnapshot) :
    (∀ i ∈ simpleGenerate scfg order_count snaps,
      i.action = "buy" ∧ i.count = order_count ∧ 1 ≤ i.price_cents) ∧
    (∀ l, feeAwareGenerate fcfg provider order_count fsnaps = Except.ok l →
      ∀ i ∈ l, i.action = "buy" ∧ i.count = order_count ∧ 1 ≤ i.price_cents) := by
  refine ⟨simpleGenerate_invariant scfg order_count snaps, ?_⟩
  intro l hl i hi
  rw [feeAwareGenerate_ok fcfg provider order_count fsnaps l hl] at hi
  simp at hi

/-- C10 witness: the invariant holds for the concrete intent emitted by the
simple strategy on the 0.60-fair snapshot. -/
theorem c10_intent_invariants_witness :
    c10intent.action = "buy" ∧ c10intent.count = 5 ∧ 1 ≤ c10intent.price_cents := by
  have hgen : simpleGenerate c10cfg 5 [c10snap] = [c10intent] := by
    norm_num [simpleGenerate, simpleStep, c10cfg, c10snap, c10intent, List.foldl]
  have hmem : c10intent ∈ simpleGenerate c10cfg 5 [c10snap] := by
    rw [hgen]
    exact List.mem_singleton_self _
  exact (c10_intent_invariants c10cfg evalCfg evalProvider 5 [c10snap] []).1
    c10intent hmem

end KalshiBot
